import Mathlib

/-!
Verification of the `torecsys` Dynamic Routing (behaviour-to-interest) layer
(`torecsys/layers/ctr/dynamic_routing.py`) and of
`FactorizationMachineModule.forward` (`torecsys/models/ctr/factorization_machine.py`).

Tensors are shallowly embedded as `Fin`-indexed families of real numbers, one
index per named axis, in the source's axis order:

* `BehaviorBatch`  : `Fin B → Fin N → Fin E → ℝ`       (axes `B, N, E`)
* `PriorVotes`     : `Fin B → Fin K → Fin N → Fin O → ℝ` (axes `B, K, N, ECap`)
* `CouplingState`  : `Fin B → Fin K → Fin N → Fin O → ℝ`
* `InterestVectors`: `Fin B → Fin K → Fin O → ℝ`

Float arithmetic is idealised as real arithmetic.  The ambient random draws of
the source (`torch.randn` for `S`, `torch.randn_like` for the initial coupling
state) are modelled as explicit arguments, following the spec's design note
that the randomness source be an injectable dependency.
-/

noncomputable section

/-! ## Capsule Count Policy (`DynamicRoutingLayer._dynamic_interest_number`)

Source (`dynamic_routing.py`, line 79):
`return int(max(1, min(self.num_caps, np.log2(i))))`.

* `np.log2` on a positive integer is modelled as `Real.logb 2`.
* For `i = 0`, `np.log2 0` evaluates to `-inf` (with a runtime warning, not an
  exception); `min(num_caps, -inf) = -inf`, `max(1, -inf) = 1`, `int(1.0) = 1`,
  so the call returns `1`.  The `i = 0` branch below records exactly that.
* Python's `int()` truncates toward zero; the truncated value
  `max(1, min(num_caps, log2 i))` is always `≥ 1 > 0`, so truncation agrees
  with `Int.floor`.

The source method body contains no validation and no raise statement, so the
embedding is a total function.
-/

def dynamic_interest_number (num_caps : ℤ) (i : ℕ) : ℤ :=
  if i = 0 then 1 else ⌊max (1 : ℝ) (min (num_caps : ℝ) (Real.logb 2 i))⌋

/-! ## Layer construction (`DynamicRoutingLayer.__init__`)

Source (`dynamic_routing.py`, lines 40-68): the constructor binds `num_caps`
and `num_iter` unchecked, then creates the Gaussian-initialised parameter with
`torch.randn(embed_size, routed_size)` (line 67).  It contains **no explicit
validation** and no raise statement; the only failure a call can produce is
the `RuntimeError` that `torch.randn` itself raises when a requested size is
negative ("Trying to create tensor with negative dimension"; size 0 is
accepted).  The embedding returns `Except ConfigError _` to make "fails at
construction time" expressible, with exactly that one error path.  The
sampled entries of `S` are taken as an explicit argument `randS`. -/

inductive ConfigError : Type
  /-- ConfigurationError/InvalidArgument of the spec's taxonomy — never
  raised by the source. -/
  | invalidArgument : ConfigError
  /-- RuntimeError raised by `torch.randn` for a negative requested size. -/
  | negativeDimension : ConfigError
deriving DecidableEq

structure DynamicRoutingLayer : Type where
  num_caps : ℤ
  num_iter : ℤ
  S : ℤ → ℤ → ℝ

def DynamicRoutingLayer.init (embed_size routed_size num_caps num_iter : ℤ)
    (randS : ℤ → ℤ → ℝ) : Except ConfigError DynamicRoutingLayer :=
  if embed_size < 0 ∨ routed_size < 0 then Except.error ConfigError.negativeDimension
  else Except.ok ⟨num_caps, num_iter, randS⟩

/-! ## Squashing function

Modelled from the spec: the function `squash` is imported from
`torecsys.utils.operations`, a module that is not part of the shown source;
§4.2 of the spec gives its contract, which is followed verbatim here:
`v = (‖z‖² / (1 + ‖z‖²)) · (z / ‖z‖)` along the last axis, with the zero-norm
input special-cased to the zero vector. -/

def sqNorm {O : ℕ} (z : Fin O → ℝ) : ℝ :=
  ∑ e, z e ^ 2

def squash {O : ℕ} (z : Fin O → ℝ) : Fin O → ℝ :=
  if sqNorm z = 0 then fun _ => 0
  else fun e => (sqNorm z / (1 + sqNorm z)) * (z e / Real.sqrt (sqNorm z))

/-! ## Routing engine, value level (`DynamicRoutingLayer.forward`)

The forward pass of `dynamic_routing.py`, lines 81-163, stage by stage.
`.detach()` leaves values unchanged, so it is invisible at this level (the
differentiation semantics is modelled separately below); `priors_temp` and
`priors` therefore coincide here. -/

/-- Softmax along the capsule axis `K` (`torch.softmax(coup_coefficient, dim="K")`). -/
def softmaxK {B K N O : ℕ} (c : Fin B → Fin K → Fin N → Fin O → ℝ) :
    Fin B → Fin K → Fin N → Fin O → ℝ :=
  fun b k n e => Real.exp (c b k n e) / ∑ j, Real.exp (c b j n e)

/-- Prior votes: `torch.matmul(emb_inputs, self.S)` repeated along the capsule
axis `K` (lines 100-103); the value does not depend on `k`. -/
def priorsOf {B N E O : ℕ} (K : ℕ) (S : Fin E → Fin O → ℝ)
    (emb : Fin B → Fin N → Fin E → ℝ) :
    Fin B → Fin K → Fin N → Fin O → ℝ :=
  fun b _ n o => ∑ e, emb b n e * S e o

/-- Weighted aggregation over the item axis: `(weights * p).sum(dim="N")`. -/
def routedSum {B K N O : ℕ} (weights p : Fin B → Fin K → Fin N → Fin O → ℝ) :
    Fin B → Fin K → Fin O → ℝ :=
  fun b k o => ∑ n, weights b k n o * p b k n o

/-- Consensus vector of one refinement iteration:
`v = squash((softmax(coup, dim="K") * priors_temp).sum(dim="N"))` (lines 121-132). -/
def routingV {B K N O : ℕ} (p c : Fin B → Fin K → Fin N → Fin O → ℝ) :
    Fin B → Fin K → Fin O → ℝ :=
  fun b k => squash (routedSum (softmaxK c) p b k)

/-- Agreement term of one refinement iteration (lines 134-140):
`torch.matmul(priors_temp, v_temp)` with `v_temp` of shape `(B, K, ECap, 1)`,
i.e. the scalar product of each prior vote with the consensus vector over the
routed axis, yielding shape `(B, K, N, 1)`.  The subsequent addition
broadcasts the size-1 last axis across `ECap`, so as a `(B, K, N, ECap)`
tensor the term ignores its last index. -/
def similarityOf {B K N O : ℕ} (p c : Fin B → Fin K → Fin N → Fin O → ℝ) :
    Fin B → Fin K → Fin N → Fin O → ℝ :=
  fun b k n _ => ∑ e, p b k n e * routingV p c b k e

/-- Body of the refinement loop (lines 117-146):
`coup_coefficient = coup_coefficient + similarity`. -/
def routingIter {B K N O : ℕ} (p c : Fin B → Fin K → Fin N → Fin O → ℝ) :
    Fin B → Fin K → Fin N → Fin O → ℝ :=
  fun b k n e => c b k n e + similarityOf p c b k n e

/-- The loop `for _ in range(self.num_iter - 1)` run `t` times. -/
def routingLoop {B K N O : ℕ} (p : Fin B → Fin K → Fin N → Fin O → ℝ) :
    ℕ → (Fin B → Fin K → Fin N → Fin O → ℝ) → (Fin B → Fin K → Fin N → Fin O → ℝ)
  | 0, c => c
  | t + 1, c => routingLoop p t (routingIter p c)

/-- Forward computation for a given capsule count `K` (lines 95-163): prior
votes, `num_iter - 1` refinement iterations starting from the sampled coupling
state `coup`, final softmax aggregation against the original priors, squash.
Python's `range(self.num_iter - 1)` is empty for `num_iter ≤ 1`, which
`(num_iter - 1).toNat` reproduces for every integer `num_iter`. -/
def forwardCore {B N E O : ℕ} (K : ℕ) (num_iter : ℤ) (S : Fin E → Fin O → ℝ)
    (emb : Fin B → Fin N → Fin E → ℝ)
    (coup : Fin B → Fin K → Fin N → Fin O → ℝ) :
    Fin B → Fin K → Fin O → ℝ :=
  fun b k =>
    squash
      (routedSum
        (softmaxK (routingLoop (priorsOf K S emb) (num_iter - 1).toNat coup))
        (priorsOf K S emb) b k)

/-- Full forward pass: the capsule-axis length is
`self._dynamic_interest_number(emb_inputs.size("N"))`, computed per call from
the item-axis length `N` (line 93). -/
def dynamicRoutingForward {B N E O : ℕ} (num_caps num_iter : ℤ)
    (S : Fin E → Fin O → ℝ) (emb : Fin B → Fin N → Fin E → ℝ)
    (coup : Fin B → Fin (dynamic_interest_number num_caps N).toNat → Fin N → Fin O → ℝ) :
    Fin B → Fin (dynamic_interest_number num_caps N).toNat → Fin O → ℝ :=
  forwardCore (dynamic_interest_number num_caps N).toNat num_iter S emb coup

/-- Agreement signal as worded by the spec's §4.4 step 3d (for claim C1 only):
"elementwise product broadcast of priorVotes_noGrad and v …, same shape as
CouplingState". -/
def claimedElementwiseAgreement {B K N O : ℕ}
    (p : Fin B → Fin K → Fin N → Fin O → ℝ) (v : Fin B → Fin K → Fin O → ℝ) :
    Fin B → Fin K → Fin N → Fin O → ℝ :=
  fun b k n e => p b k n e * v b k e

/-! ## Routing engine, differentiation semantics

The autograd behaviour of the forward pass is modelled with forward-mode dual
numbers: every tensor entry carries its value together with its directional
derivative with respect to a chosen perturbation of the parameter `S`.
`Tensor.detach()` keeps the value and kills the derivative, and a freshly
sampled tensor (`torch.randn_like`) carries derivative zero — exactly the two
ways the source cuts the gradient path. -/

structure Dual : Type where
  val : ℝ
  der : ℝ

instance : Zero Dual := ⟨⟨0, 0⟩⟩
instance : One Dual := ⟨⟨1, 0⟩⟩
instance : Add Dual := ⟨fun a b => ⟨a.val + b.val, a.der + b.der⟩⟩
instance : Mul Dual := ⟨fun a b => ⟨a.val * b.val, a.der * b.val + a.val * b.der⟩⟩
instance : Sub Dual := ⟨fun a b => ⟨a.val - b.val, a.der - b.der⟩⟩
instance : Div Dual :=
  ⟨fun a b => ⟨a.val / b.val, (a.der * b.val - a.val * b.der) / b.val ^ 2⟩⟩

instance : AddCommMonoid Dual where
  add_assoc := by
    rintro ⟨a, b⟩ ⟨c, d⟩ ⟨e, f⟩
    show Dual.mk (a + c + e) (b + d + f) = Dual.mk (a + (c + e)) (b + (d + f))
    rw [add_assoc, add_assoc]
  zero_add := by
    rintro ⟨a, b⟩
    show Dual.mk (0 + a) (0 + b) = Dual.mk a b
    rw [zero_add, zero_add]
  add_zero := by
    rintro ⟨a, b⟩
    show Dual.mk (a + 0) (b + 0) = Dual.mk a b
    rw [add_zero, add_zero]
  add_comm := by
    rintro ⟨a, b⟩ ⟨c, d⟩
    show Dual.mk (a + c) (b + d) = Dual.mk (c + a) (d + b)
    rw [add_comm a c, add_comm b d]
  nsmul := nsmulRec

/-- Value projection, additive in sums. -/
def Dual.valHom : Dual →+ ℝ where
  toFun := Dual.val
  map_zero' := rfl
  map_add' _ _ := rfl

/-- Derivative projection, additive in sums. -/
def Dual.derHom : Dual →+ ℝ where
  toFun := Dual.der
  map_zero' := rfl
  map_add' _ _ := rfl

/-- Model of `Tensor.detach()`: identical value, no gradient path. -/
def Dual.detach (a : Dual) : Dual := ⟨a.val, 0⟩

/-- A tensor entry that does not depend on the perturbed parameter. -/
def Dual.const (x : ℝ) : Dual := ⟨x, 0⟩

/-- Exponential on duals. -/
def Dual.exp (a : Dual) : Dual := ⟨Real.exp a.val, a.der * Real.exp a.val⟩

/-- Square root on duals (derivative junk at `0`, never used there). -/
def Dual.sqrt (a : Dual) : Dual := ⟨Real.sqrt a.val, a.der / (2 * Real.sqrt a.val)⟩

/-! The forward stages again, now over `Dual`, with the source's `.detach()`
inserted where the source inserts it (line 108) and `torch.randn_like`
(line 113) producing constant (derivative-free) entries. -/

def dSqNorm {O : ℕ} (z : Fin O → Dual) : Dual :=
  ∑ e, z e * z e

/-- Dual extension of `squash` (same spec-modelled formula; the zero-norm
branch is decided on values, mirroring §4.2's zero special-case). -/
def dSquash {O : ℕ} (z : Fin O → Dual) : Fin O → Dual :=
  if (dSqNorm z).val = 0 then fun _ => 0
  else fun e => (dSqNorm z / (1 + dSqNorm z)) * (z e / (dSqNorm z).sqrt)

def dSoftmaxK {B K N O : ℕ} (c : Fin B → Fin K → Fin N → Fin O → Dual) :
    Fin B → Fin K → Fin N → Fin O → Dual :=
  fun b k n e => (c b k n e).exp / ∑ j, (c b j n e).exp

def dPriorsOf {B N E O : ℕ} (K : ℕ) (S : Fin E → Fin O → Dual)
    (emb : Fin B → Fin N → Fin E → Dual) :
    Fin B → Fin K → Fin N → Fin O → Dual :=
  fun b _ n o => ∑ e, emb b n e * S e o

def dRoutedSum {B K N O : ℕ} (weights p : Fin B → Fin K → Fin N → Fin O → Dual) :
    Fin B → Fin K → Fin O → Dual :=
  fun b k o => ∑ n, weights b k n o * p b k n o

def dRoutingV {B K N O : ℕ} (p c : Fin B → Fin K → Fin N → Fin O → Dual) :
    Fin B → Fin K → Fin O → Dual :=
  fun b k => dSquash (dRoutedSum (dSoftmaxK c) p b k)

def dSimilarityOf {B K N O : ℕ} (p c : Fin B → Fin K → Fin N → Fin O → Dual) :
    Fin B → Fin K → Fin N → Fin O → Dual :=
  fun b k n _ => ∑ e, p b k n e * dRoutingV p c b k e

def dRoutingIter {B K N O : ℕ} (p c : Fin B → Fin K → Fin N → Fin O → Dual) :
    Fin B → Fin K → Fin N → Fin O → Dual :=
  fun b k n e => c b k n e + dSimilarityOf p c b k n e

def dRoutingLoop {B K N O : ℕ} (p : Fin B → Fin K → Fin N → Fin O → Dual) :
    ℕ → (Fin B → Fin K → Fin N → Fin O → Dual) →
      (Fin B → Fin K → Fin N → Fin O → Dual)
  | 0, c => c
  | t + 1, c => dRoutingLoop p t (dRoutingIter p c)

/-- Detached prior votes `priors_temp = priors.detach()` (line 108). -/
def dPriorsTemp {B N E O : ℕ} (K : ℕ) (S : Fin E → Fin O → Dual)
    (emb : Fin B → Fin N → Fin E → Dual) :
    Fin B → Fin K → Fin N → Fin O → Dual :=
  fun b k n o => (dPriorsOf K S emb b k n o).detach

/-- Coupling state after the refinement loop, starting from the sampled values
`coupInit` (`torch.randn_like`, lines 113-114: a fresh tensor carrying no
gradient); the loop runs on the detached snapshot only. -/
def dCoupFinal {B N E O : ℕ} (K : ℕ) (num_iter : ℤ) (S : Fin E → Fin O → Dual)
    (emb : Fin B → Fin N → Fin E → Dual)
    (coupInit : Fin B → Fin K → Fin N → Fin O → ℝ) :
    Fin B → Fin K → Fin N → Fin O → Dual :=
  dRoutingLoop (dPriorsTemp K S emb) (num_iter - 1).toNat
    (fun b k n o => Dual.const (coupInit b k n o))

/-- Final aggregation `z = (softmax(coup, dim="K") * priors).sum(dim="N")`
(lines 152-153): the original, gradient-carrying priors. -/
def dZFinal {B N E O : ℕ} (K : ℕ) (num_iter : ℤ) (S : Fin E → Fin O → Dual)
    (emb : Fin B → Fin N → Fin E → Dual)
    (coupInit : Fin B → Fin K → Fin N → Fin O → ℝ) :
    Fin B → Fin K → Fin O → Dual :=
  dRoutedSum (dSoftmaxK (dCoupFinal K num_iter S emb coupInit)) (dPriorsOf K S emb)

/-- Dual-number forward pass for a given capsule count `K`. -/
def dForwardCore {B N E O : ℕ} (K : ℕ) (num_iter : ℤ) (S : Fin E → Fin O → Dual)
    (emb : Fin B → Fin N → Fin E → Dual)
    (coupInit : Fin B → Fin K → Fin N → Fin O → ℝ) :
    Fin B → Fin K → Fin O → Dual :=
  fun b k => dSquash (dZFinal K num_iter S emb coupInit b k)

/-! ## `FactorizationMachineModule.forward`
(`torecsys/models/ctr/factorization_machine.py`, lines 40-60)

The module's final statement is `outputs = fm_second + fm_first + bias`, where
`bias` is a bare name: the attribute set in the constructor is `self.bias`,
and neither the function scope (`feat_inputs`, `emb_inputs`, `self`,
`fm_first`, `fm_second`) nor the module's global scope (the imported names and
the two class names) binds `bias`, so CPython raises `NameError` when the
name is loaded — after the left addition `fm_second + fm_first` has been
evaluated, and before any value is returned.

Name resolution is embedded explicitly: the final statement is an expression
tree over names, evaluated against the environment that the function body has
actually built.  Shapes follow the docstring contract `(B, N, 1)`/`(B, N, E)`;
after the two `squeeze()` calls the operands of the addition have shapes
`(B, E)` and `(B, N)`, so the embedding (like the broadcast in the source)
requires `E = N`; `B, N ≥ 2` is assumed so that `squeeze()` removes exactly
the written size-1 axes. -/

inductive PyErr : Type
  | nameError (n : String) : PyErr
deriving DecidableEq

/-- Embedding of `FactorizationMachineLayer.forward` (`torecsys/layers/ctr/factorization_machine.py`,
lines 26-44): `0.5 * ((emb.sum(dim=1)) ** 2 - (emb ** 2).sum(dim=1))`, then
dropout and `unsqueeze(1)`.  The module under verification constructs the
layer with its default `dropout_p = 0.0`, for which dropout is the identity. -/
def fmLayerForward {B N E : ℕ} (emb : Fin B → Fin N → Fin E → ℝ) :
    Fin B → Fin 1 → Fin E → ℝ :=
  fun b _ e => 0.5 * ((∑ n, emb b n e) ^ 2 - ∑ n, (emb b n e) ^ 2)

/-- Expression form of the statement `outputs = fm_second + fm_first + bias`:
Python parses it as `(fm_second + fm_first) + bias` and loads each name from
the enclosing scopes when it is evaluated. -/
inductive FmExpr : Type
  | var (n : String) : FmExpr
  | add (a b : FmExpr) : FmExpr

/-- Evaluation of an `FmExpr` against an environment of bound names; an
unbound name raises `NameError`, and the two operands of `+` are evaluated
left to right before the addition (same-shape elementwise addition, the
applicable broadcast case here). -/
def evalFmExpr {B N : ℕ} (env : String → Option (Fin B → Fin N → ℝ)) :
    FmExpr → Except PyErr (Fin B → Fin N → ℝ)
  | FmExpr.var n =>
    match env n with
    | some v => Except.ok v
    | none => Except.error (PyErr.nameError n)
  | FmExpr.add a b => do
    let x ← evalFmExpr env a
    let y ← evalFmExpr env b
    Except.ok (fun i j => x i j + y i j)

/-- Tensor-valued names in scope at the final statement of
`FactorizationMachineModule.forward` (with `E = N`, see above):
`fm_first = feat_inputs.squeeze()` of shape `(B, N)` and
`fm_second = self.fm(emb_inputs).squeeze()` of shape `(B, E)`.  No scope —
locals, globals or builtins — binds the name `bias`. -/
def fmModuleEnv {B N : ℕ} (feat : Fin B → Fin N → Fin 1 → ℝ)
    (emb : Fin B → Fin N → Fin N → ℝ) : String → Option (Fin B → Fin N → ℝ) :=
  fun n =>
    if n = "fm_first" then some (fun b i => feat b i 0)
    else if n = "fm_second" then some (fun b e => fmLayerForward emb b 0 e)
    else none

/-- Embedding of `FactorizationMachineModule.forward`: the body computes `fm_first` and
`fm_second`, then evaluates `fm_second + fm_first + bias`. -/
def fmModuleForward {B N : ℕ} (feat : Fin B → Fin N → Fin 1 → ℝ)
    (emb : Fin B → Fin N → Fin N → ℝ) : Except PyErr (Fin B → Fin N → ℝ) :=
  evalFmExpr (fmModuleEnv feat emb)
    (FmExpr.add (FmExpr.add (FmExpr.var "fm_second") (FmExpr.var "fm_first"))
      (FmExpr.var "bias"))

end

/-! # Helper lemmas -/

@[simp] theorem Dual.zero_val : (0 : Dual).val = 0 := rfl

@[simp] theorem Dual.zero_der : (0 : Dual).der = 0 := rfl

@[simp] theorem Dual.one_val : (1 : Dual).val = 1 := rfl

@[simp] theorem Dual.one_der : (1 : Dual).der = 0 := rfl

@[simp] theorem Dual.add_val (a b : Dual) : (a + b).val = a.val + b.val := rfl

@[simp] theorem Dual.add_der (a b : Dual) : (a + b).der = a.der + b.der := rfl

@[simp] theorem Dual.mul_val (a b : Dual) : (a * b).val = a.val * b.val := rfl

@[simp] theorem Dual.mul_der (a b : Dual) :
    (a * b).der = a.der * b.val + a.val * b.der := rfl

@[simp] theorem Dual.div_val (a b : Dual) : (a / b).val = a.val / b.val := rfl

@[simp] theorem Dual.div_der (a b : Dual) :
    (a / b).der = (a.der * b.val - a.val * b.der) / b.val ^ 2 := rfl

@[simp] theorem Dual.detach_val (a : Dual) : a.detach.val = a.val := rfl

@[simp] theorem Dual.detach_der (a : Dual) : a.detach.der = 0 := rfl

@[simp] theorem Dual.const_val (x : ℝ) : (Dual.const x).val = x := rfl

@[simp] theorem Dual.const_der (x : ℝ) : (Dual.const x).der = 0 := rfl

@[simp] theorem Dual.exp_val (a : Dual) : a.exp.val = Real.exp a.val := rfl

@[simp] theorem Dual.exp_der (a : Dual) : a.exp.der = a.der * Real.exp a.val := rfl

@[simp] theorem Dual.sqrt_val (a : Dual) : a.sqrt.val = Real.sqrt a.val := rfl

@[simp] theorem Dual.sqrt_der (a : Dual) :
    a.sqrt.der = a.der / (2 * Real.sqrt a.val) := rfl

theorem Dual.der_sum {ι : Type} (s : Finset ι) (f : ι → Dual) :
    (∑ i ∈ s, f i).der = ∑ i ∈ s, (f i).der :=
  map_sum Dual.derHom f s

theorem Dual.val_sum {ι : Type} (s : Finset ι) (f : ι → Dual) :
    (∑ i ∈ s, f i).val = ∑ i ∈ s, (f i).val :=
  map_sum Dual.valHom f s

theorem floor_min_intCast (C : ℤ) (L : ℝ) : ⌊min (C : ℝ) L⌋ = min C ⌊L⌋ := by
  rcases le_total (C : ℝ) L with h | h
  · rw [min_eq_left h, Int.floor_intCast, min_eq_left (Int.le_floor.mpr h)]
  · rw [min_eq_right h]
    exact (min_eq_right ((Int.floor_mono h).trans_eq (Int.floor_intCast C))).symm

theorem floor_one_max_min (C : ℤ) (L : ℝ) :
    ⌊max (1 : ℝ) (min (C : ℝ) L)⌋ = max 1 (min C ⌊L⌋) := by
  rcases le_total (1 : ℝ) (min (C : ℝ) L) with h | h
  · have h1 : (1 : ℤ) ≤ min C ⌊L⌋ := by
      rw [← floor_min_intCast]
      exact Int.le_floor.mpr (by exact_mod_cast h)
    rw [max_eq_right h, floor_min_intCast, max_eq_right h1]
  · have h1 : min C ⌊L⌋ ≤ (1 : ℤ) := by
      rw [← floor_min_intCast]
      exact (Int.floor_mono h).trans_eq Int.floor_one
    rw [max_eq_left h, Int.floor_one, max_eq_left h1]

/-- Closed form of the capsule count policy: for `i ≥ 1` the real-logarithm
formula of the source coincides with the integer expression
`max 1 (min num_caps (Nat.log 2 i))`. -/
theorem dynamic_interest_number_closed (C : ℤ) {i : ℕ} (hi : 1 ≤ i) :
    dynamic_interest_number C i = max 1 (min C (Nat.log 2 i : ℤ)) := by
  have hi0 : i ≠ 0 := Nat.one_le_iff_ne_zero.mp hi
  rw [dynamic_interest_number, if_neg hi0, floor_one_max_min]
  have h2 : ((2 : ℕ) : ℝ) = (2 : ℝ) := by norm_num
  rw [← h2, Real.floor_logb_natCast (Nat.cast_nonneg i), Int.log_natCast]




/-! # Claim theorems -/

/-- C2: with `numIterations = 1` the refinement loop executes zero times
(`range(1 - 1)` is empty) and the routing output is
`squash(sum over the item axis of (softmax(initialRandomCoupling, over K) ⊙ priorVotes))`,
where the coupling state is exactly the freshly sampled one. -/
theorem c2_single_iteration_skips_loop {B N E O : ℕ} (num_caps : ℤ)
    (S : Fin E → Fin O → ℝ) (emb : Fin B → Fin N → Fin E → ℝ)
    (coup : Fin B → Fin (dynamic_interest_number num_caps N).toNat → Fin N → Fin O → ℝ) :
    dynamicRoutingForward num_caps 1 S emb coup =
      fun b k => squash (fun o => ∑ n, softmaxK coup b k n o *
        priorsOf (dynamic_interest_number num_caps N).toNat S emb b k n o) :=
  rfl

/-- C5 counterexample: at `itemCount = 0` the Capsule Count Policy does not
fail — `np.log2(0)` is `-inf`, the `min`/`max` clamp turns it into `1`, and
the method returns the value `1` (the source contains no validation and no
raise statement). -/
theorem c5_counterexample_policy_returns_at_zero :
    dynamic_interest_number 4 0 = 1 := rfl

/-- C5 (amended): for `itemCount = 0` the Capsule Count Policy does not raise;
it silently returns `K = 1` for every configured `maxCapsules`. -/
theorem c5_amended_policy_value_at_zero (num_caps : ℤ) :
    dynamic_interest_number num_caps 0 = 1 := rfl

/-- C6 counterexample: constructing the layer with `numIterations = 0` and
non-positive `embedDim`/`routedDim`/`maxCapsules` succeeds — `__init__`
performs no validation, so no ConfigurationError is raised at construction
time. -/
theorem c6_counterexample_init_accepts_invalid :
    DynamicRoutingLayer.init 0 0 0 0 (fun _ _ => 0) =
      Except.ok ⟨0, 0, fun _ _ => 0⟩ := rfl

/-- C6 (amended): `__init__` performs no explicit validation —
`numIterations < 1`, non-positive `maxCapsules` and zero
`embedDim`/`routedDim` are all accepted silently with the values stored
unchanged; the only construction-time failure is the RuntimeError that
`torch.randn(embed_size, routed_size)` raises when `embedDim` or `routedDim`
is negative.  No ConfigurationError/InvalidArgument is ever raised. -/
theorem c6_amended_init_validation
    (embed_size routed_size num_caps num_iter : ℤ) (randS : ℤ → ℤ → ℝ) :
    (0 ≤ embed_size → 0 ≤ routed_size →
      DynamicRoutingLayer.init embed_size routed_size num_caps num_iter randS =
        Except.ok ⟨num_caps, num_iter, randS⟩) ∧
    (embed_size < 0 ∨ routed_size < 0 →
      DynamicRoutingLayer.init embed_size routed_size num_caps num_iter randS =
        Except.error ConfigError.negativeDimension) := by
  constructor
  · intro he hr
    rw [DynamicRoutingLayer.init, if_neg (by omega)]
  · intro h
    rw [DynamicRoutingLayer.init, if_pos h]

/-- C6 amended-claim witness: construction with `numIterations = 0` and zero
dimensions succeeds, and construction with `embedDim = -1` fails with the
negative-dimension RuntimeError. -/
theorem c6_amended_init_validation_witness :
    ((0 : ℤ) ≤ 0 ∧ (0 : ℤ) ≤ 0 ∧
      DynamicRoutingLayer.init 0 0 0 0 (fun _ _ => 0) =
        Except.ok ⟨0, 0, fun _ _ => 0⟩) ∧
    (((-1 : ℤ) < 0 ∨ (8 : ℤ) < 0) ∧
      DynamicRoutingLayer.init (-1) 8 4 3 (fun _ _ => 0) =
        Except.error ConfigError.negativeDimension) :=
  ⟨⟨le_refl 0, le_refl 0,
      (c6_amended_init_validation 0 0 0 0 (fun _ _ => 0)).1 (le_refl 0) (le_refl 0)⟩,
    ⟨Or.inl (by norm_num),
      (c6_amended_init_validation (-1) 8 4 3 (fun _ _ => 0)).2 (Or.inl (by norm_num))⟩⟩

/-- C9: the forward pass is deterministic given its randomness source — with
the coupling-state initialisation modelled as the explicit sampled tensor
`coup`, equal parameters, inputs and samples give bit-identical outputs. -/
theorem c9_forward_deterministic {B N E O : ℕ} (num_caps num_iter : ℤ)
    (S S' : Fin E → Fin O → ℝ) (emb emb' : Fin B → Fin N → Fin E → ℝ)
    (coup coup' : Fin B → Fin (dynamic_interest_number num_caps N).toNat → Fin N → Fin O → ℝ)
    (hS : S = S') (hemb : emb = emb') (hcoup : coup = coup') :
    dynamicRoutingForward num_caps num_iter S emb coup =
      dynamicRoutingForward num_caps num_iter S' emb' coup' := by
  rw [hS, hemb, hcoup]

/-- C9 witness: the determinism theorem applied at a concrete configuration. -/
theorem c9_forward_deterministic_witness :
    dynamicRoutingForward (B := 1) (N := 1) (E := 1) (O := 1) 1 3
        (fun _ _ => 1) (fun _ _ _ => 1) (fun _ _ _ _ => 0) =
      dynamicRoutingForward (B := 1) (N := 1) (E := 1) (O := 1) 1 3
        (fun _ _ => 1) (fun _ _ _ => 1) (fun _ _ _ _ => 0) :=
  c9_forward_deterministic 1 3 _ _ _ _ _ _ rfl rfl rfl

/-- C10: every call of `FactorizationMachineModule.forward` evaluates
`fm_second + fm_first + bias` whose bare name `bias` is bound in no enclosing
scope (`self.bias` is an attribute, never a name), so the call raises
`NameError` instead of returning an output value. -/
theorem c10_fm_module_forward_name_error {B N : ℕ}
    (feat : Fin B → Fin N → Fin 1 → ℝ) (emb : Fin B → Fin N → Fin N → ℝ) :
    fmModuleForward feat emb = Except.error (PyErr.nameError "bias") := rfl

/-- C3: for `itemCount ≥ 1` and `maxCapsules ≥ 1` the Capsule Count Policy
returns `max(1, min(maxCapsules, floor(log2(itemCount))))`; consequently the
result lies in `[1, maxCapsules]`, is monotone non-decreasing in `itemCount`,
and saturates at `maxCapsules` (from `itemCount = 2^maxCapsules` on). -/
theorem c3_capsule_count_policy {C : ℤ} (hC : 1 ≤ C) {i : ℕ} (hi : 1 ≤ i) :
    dynamic_interest_number C i = max 1 (min C ⌊Real.logb 2 (i : ℝ)⌋) ∧
    (1 ≤ dynamic_interest_number C i ∧ dynamic_interest_number C i ≤ C) ∧
    (∀ j : ℕ, i ≤ j → dynamic_interest_number C i ≤ dynamic_interest_number C j) ∧
    (∀ j : ℕ, 2 ^ C.toNat ≤ j → dynamic_interest_number C j = C) := by
  have hlog : ∀ n : ℕ, ⌊Real.logb 2 (n : ℝ)⌋ = (Nat.log 2 n : ℤ) := by
    intro n
    have h2 : ((2 : ℕ) : ℝ) = (2 : ℝ) := by norm_num
    rw [← h2, Real.floor_logb_natCast (Nat.cast_nonneg n), Int.log_natCast]
  refine ⟨?_, ⟨?_, ?_⟩, ?_, ?_⟩
  · rw [dynamic_interest_number_closed C hi, hlog]
  · rw [dynamic_interest_number_closed C hi]
    exact le_max_left _ _
  · rw [dynamic_interest_number_closed C hi]
    exact max_le hC (min_le_left _ _)
  · intro j hij
    have hj : 1 ≤ j := hi.trans hij
    rw [dynamic_interest_number_closed C hi, dynamic_interest_number_closed C hj]
    exact max_le_max le_rfl
      (min_le_min le_rfl (by exact_mod_cast Nat.log_mono_right hij))
  · intro j hj
    have hj1 : 1 ≤ j := le_trans (Nat.one_le_two_pow) hj
    rw [dynamic_interest_number_closed C hj1]
    have hlogC : (C : ℤ) ≤ (Nat.log 2 j : ℤ) := by
      have : C.toNat ≤ Nat.log 2 j := by
        calc C.toNat = Nat.log 2 (2 ^ C.toNat) := (Nat.log_pow one_lt_two _).symm
          _ ≤ Nat.log 2 j := Nat.log_mono_right hj
      omega
    rw [min_eq_left hlogC, max_eq_right hC]

/-- C3 witness: the policy theorem applied at `maxCapsules = 4`,
`itemCount = 10`. -/
theorem c3_capsule_count_policy_witness :
    (1 : ℤ) ≤ 4 ∧ (1 : ℕ) ≤ 10 ∧
      (dynamic_interest_number 4 10 = max 1 (min 4 ⌊Real.logb 2 ((10 : ℕ) : ℝ)⌋) ∧
        (1 ≤ dynamic_interest_number 4 10 ∧ dynamic_interest_number 4 10 ≤ 4) ∧
        (∀ j : ℕ, 10 ≤ j → dynamic_interest_number 4 10 ≤ dynamic_interest_number 4 j) ∧
        (∀ j : ℕ, 2 ^ (4 : ℤ).toNat ≤ j → dynamic_interest_number 4 j = 4)) :=
  ⟨by norm_num, by norm_num, c3_capsule_count_policy (by norm_num) (by norm_num)⟩

theorem sqNorm_nonneg {O : ℕ} (z : Fin O → ℝ) : 0 ≤ sqNorm z :=
  Finset.sum_nonneg fun _ _ => sq_nonneg _

theorem sqNorm_smul {O : ℕ} (c : ℝ) (z : Fin O → ℝ) :
    sqNorm (fun e => c * z e) = c ^ 2 * sqNorm z := by
  simp only [sqNorm, mul_pow]
  rw [Finset.mul_sum]

/-- C7: `squash` realises `(‖z‖²/(1+‖z‖²))·(z/‖z‖)` along the last axis —
every nonzero vector is mapped to a positive scalar multiple of itself with
norm strictly below 1, and the zero vector is mapped exactly to the zero
vector (no NaN: over the real model the zero branch is explicit). -/
theorem c7_squash_contract :
    (∀ (O : ℕ) (z : Fin O → ℝ), sqNorm z ≠ 0 →
        Real.sqrt (sqNorm (squash z)) < 1 ∧
          ∃ c : ℝ, 0 < c ∧ squash z = fun e => c * z e) ∧
    ∀ (O : ℕ), squash (fun _ : Fin O => (0 : ℝ)) = fun _ => (0 : ℝ) := by
  constructor
  · intro O z hz
    have hs : 0 < sqNorm z := (sqNorm_nonneg z).lt_of_ne (Ne.symm hz)
    have hsq : 0 < Real.sqrt (sqNorm z) := Real.sqrt_pos.mpr hs
    have h1s : 0 < 1 + sqNorm z := by linarith
    have hc : squash z = fun e =>
        (sqNorm z / ((1 + sqNorm z) * Real.sqrt (sqNorm z))) * z e := by
      funext e
      rw [squash, if_neg hz]
      field_simp
    refine ⟨?_, ⟨_, by positivity, hc⟩⟩
    rw [hc, sqNorm_smul]
    have hval : (sqNorm z / ((1 + sqNorm z) * Real.sqrt (sqNorm z))) ^ 2 * sqNorm z =
        sqNorm z ^ 2 / (1 + sqNorm z) ^ 2 := by
      rw [div_pow, mul_pow, Real.sq_sqrt hs.le]
      field_simp
      ring
    rw [hval]
    refine (Real.sqrt_lt' one_pos).mpr ?_
    rw [one_pow, div_lt_one (by positivity)]
    nlinarith
  · intro O
    have h0 : sqNorm (fun _ : Fin O => (0 : ℝ)) = 0 := by simp [sqNorm]
    rw [squash, if_pos h0]

/-- C7 witness: the squash contract applied to the concrete vector `(3, 4)`. -/
theorem c7_squash_contract_witness :
    sqNorm ![(3 : ℝ), 4] ≠ 0 ∧
      (Real.sqrt (sqNorm (squash ![(3 : ℝ), 4])) < 1 ∧
        ∃ c : ℝ, 0 < c ∧ squash ![(3 : ℝ), 4] = fun e => c * ![(3 : ℝ), 4] e) := by
  have h : sqNorm ![(3 : ℝ), 4] ≠ 0 := by
    simp [sqNorm, Fin.sum_univ_two]
    norm_num
  exact ⟨h, c7_squash_contract.1 2 ![(3 : ℝ), 4] h⟩

/-- C8: at the shape scenario `batch = 4, item = 10, embedDim = 8,
routedDim = 8, maxCapsules = 4, numIterations = 3`, the capsule count is
`K = max(1, min(4, floor(log2 10))) = 3` and the forward output is a tensor
indexed `(4, 3, 8)`; in the embedding the capsule-axis length of the output
type is computed from the item-axis length `N` at call time. -/
theorem c8_output_shape :
    (dynamic_interest_number 4 10).toNat = 3 ∧
    ∀ (S : Fin 8 → Fin 8 → ℝ) (emb : Fin 4 → Fin 10 → Fin 8 → ℝ)
      (coup : Fin 4 → Fin (dynamic_interest_number 4 10).toNat → Fin 10 → Fin 8 → ℝ),
      ∃ out : Fin 4 → Fin 3 → Fin 8 → ℝ,
        HEq (dynamicRoutingForward (B := 4) (N := 10) (E := 8) (O := 8) 4 3 S emb coup)
          out := by
  have hl : Nat.log 2 10 = 3 := Nat.log_eq_of_pow_le_of_lt_pow (by norm_num) (by norm_num)
  have h : (dynamic_interest_number 4 10).toNat = 3 := by
    rw [dynamic_interest_number_closed 4 (by norm_num), hl]
    rfl
  refine ⟨h, fun S emb coup => ?_⟩
  have hty : (Fin 4 → Fin (dynamic_interest_number 4 10).toNat → Fin 8 → ℝ) =
      (Fin 4 → Fin 3 → Fin 8 → ℝ) := by rw [h]
  exact ⟨cast hty (dynamicRoutingForward 4 3 S emb coup), (cast_heq hty _).symm⟩

/-- C1 counterexample: with one batch row, one capsule slot, one item and a
two-dimensional routed axis, prior votes `(3, 4)` and zero initial coupling
state, the quantity the iteration adds to the coupling state is the broadcast
scalar product `⟨(3,4), v⟩ = 125/26` at every routed coordinate, not the
elementwise product `(3·v₀, 4·v₁)` claimed by the spec (`3·v₀ = 45/26`). -/
theorem c1_counterexample_not_elementwise :
    ¬ (routingIter (B := 1) (K := 1) (N := 1) (O := 2)
        (fun _ _ _ => ![(3 : ℝ), 4]) (fun _ _ _ _ => 0) =
      fun b k n e => (fun _ _ _ _ => (0 : ℝ)) b k n e +
        claimedElementwiseAgreement (fun _ _ _ => ![(3 : ℝ), 4])
          (routingV (B := 1) (K := 1) (N := 1) (O := 2)
            (fun _ _ _ => ![(3 : ℝ), 4]) (fun _ _ _ _ => 0)) b k n e) := by
  intro h
  have h1 := congrFun (congrFun (congrFun (congrFun h 0) 0) 0) (0 : Fin 2)
  have hz : routedSum (softmaxK (B := 1) (K := 1) (N := 1) (O := 2)
      (fun _ _ _ _ => 0)) (fun _ _ _ => ![(3 : ℝ), 4]) 0 0 = ![(3 : ℝ), 4] := by
    funext o
    simp [routedSum, softmaxK, Fin.sum_univ_one, Real.exp_zero]
  have hsq : sqNorm ![(3 : ℝ), 4] = 25 := by
    simp [sqNorm, Fin.sum_univ_two]
    norm_num
  have h5 : Real.sqrt 25 = 5 := by
    rw [show (25 : ℝ) = 5 ^ 2 by norm_num, Real.sqrt_sq (by norm_num : (0 : ℝ) ≤ 5)]
  have hv : ∀ e : Fin 2, routingV (B := 1) (K := 1) (N := 1) (O := 2)
      (fun _ _ _ => ![(3 : ℝ), 4]) (fun _ _ _ _ => 0) 0 0 e =
      (25 / 26) * (![(3 : ℝ), 4] e / 5) := by
    intro e
    rw [routingV, hz, squash, if_neg (by rw [hsq]; norm_num), hsq, h5]
    norm_num
  simp only [routingIter, similarityOf, claimedElementwiseAgreement,
    Fin.sum_univ_two, hv] at h1
  norm_num [Fin.isValue] at h1

/-- C1 (amended): in every iteration of the refinement loop the quantity added
to the coupling state at coordinate `(b, k, n, e)` is the scalar product over
the routed axis of the detached prior vote `(b, k, n, ·)` with the squashed
consensus vector `v (b, k, ·)` — one scalar per (batch, slot, item) pair,
broadcast unchanged across the routed axis (the classical scalar coupling). -/
theorem c1_amended_scalar_agreement {B K N O : ℕ}
    (p c : Fin B → Fin K → Fin N → Fin O → ℝ)
    (b : Fin B) (k : Fin K) (n : Fin N) (e : Fin O) :
    routingIter p c b k n e - c b k n e =
      ∑ x, p b k n x * routingV p c b k x := by
  simp [routingIter, similarityOf]

theorem Dual.ext2 {a b : Dual} (h1 : a.val = b.val) (h2 : a.der = b.der) : a = b := by
  cases a; cases b; cases h1; cases h2; rfl

theorem dSqNorm_der_zero {O : ℕ} (z : Fin O → Dual) (h : ∀ e, (z e).der = 0) :
    (dSqNorm z).der = 0 := by
  rw [dSqNorm, Dual.der_sum]
  exact Finset.sum_eq_zero fun e _ => by simp [h e]

theorem dSquash_der_zero {O : ℕ} (z : Fin O → Dual) (h : ∀ e, (z e).der = 0)
    (e : Fin O) : (dSquash z e).der = 0 := by
  rw [dSquash]
  split
  · simp
  · simp [dSqNorm_der_zero z h, h e]

theorem dSoftmaxK_der_zero {B K N O : ℕ} (c : Fin B → Fin K → Fin N → Fin O → Dual)
    (h : ∀ b k n e, (c b k n e).der = 0) (b : Fin B) (k : Fin K) (n : Fin N)
    (e : Fin O) : (dSoftmaxK c b k n e).der = 0 := by
  have hd : (∑ j, (c b j n e).exp).der = 0 := by
    rw [Dual.der_sum]
    exact Finset.sum_eq_zero fun j _ => by simp [h]
  simp [dSoftmaxK, hd, h]

theorem dRoutingIter_der_zero {B K N O : ℕ}
    (p c : Fin B → Fin K → Fin N → Fin O → Dual)
    (hp : ∀ b k n e, (p b k n e).der = 0) (hc : ∀ b k n e, (c b k n e).der = 0)
    (b : Fin B) (k : Fin K) (n : Fin N) (e : Fin O) :
    (dRoutingIter p c b k n e).der = 0 := by
  have hz : ∀ (b : Fin B) (k : Fin K) (o : Fin O),
      (dRoutedSum (dSoftmaxK c) p b k o).der = 0 := by
    intro b k o
    rw [dRoutedSum, Dual.der_sum]
    exact Finset.sum_eq_zero fun n _ => by simp [dSoftmaxK_der_zero c hc, hp]
  have hv : ∀ (b : Fin B) (k : Fin K) (x : Fin O),
      (dRoutingV p c b k x).der = 0 := fun b k x =>
    dSquash_der_zero _ (fun o => hz b k o) x
  have hs : (dSimilarityOf p c b k n e).der = 0 := by
    rw [dSimilarityOf, Dual.der_sum]
    exact Finset.sum_eq_zero fun x _ => by simp [hp, hv]
  simp [dRoutingIter, hc, hs]

theorem dRoutingLoop_der_zero {B K N O : ℕ}
    (p : Fin B → Fin K → Fin N → Fin O → Dual)
    (hp : ∀ b k n e, (p b k n e).der = 0) :
    ∀ (t : ℕ) (c : Fin B → Fin K → Fin N → Fin O → Dual),
      (∀ b k n e, (c b k n e).der = 0) →
      ∀ b k n e, (dRoutingLoop p t c b k n e).der = 0 := by
  intro t
  induction t with
  | zero => exact fun c hc => hc
  | succ t ih => exact fun c hc => ih _ (dRoutingIter_der_zero p c hp hc)

theorem dCoupFinal_der_zero {B N E O : ℕ} (K : ℕ) (num_iter : ℤ)
    (S : Fin E → Fin O → Dual) (emb : Fin B → Fin N → Fin E → Dual)
    (coupInit : Fin B → Fin K → Fin N → Fin O → ℝ)
    (b : Fin B) (k : Fin K) (n : Fin N) (o : Fin O) :
    (dCoupFinal K num_iter S emb coupInit b k n o).der = 0 :=
  dRoutingLoop_der_zero _ (fun _ _ _ _ => rfl) _ _ (fun _ _ _ _ => rfl) b k n o

/-- C4: the differentiation boundary of the routing engine — (i) the loop
operates on a detached snapshot of the prior votes that is numerically
identical but carries no derivative; (ii) after any number of refinement
iterations the coupling state carries zero derivative (no gradient flows
through the iterations or into CouplingState); (iii) the derivative of the
final aggregation is `∑ over items of weight.val · priors.der` — the routing
weights act as fixed coefficients, so gradient reaches the projection matrix
only through the final aggregation over the original prior votes; and (iv) at
a concrete configuration (`S` value 3 perturbed in direction 1, input 1, two
routing iterations) the output derivative is nonzero. -/
theorem c4_gradient_boundary :
    (∀ (B K N E O : ℕ) (S : Fin E → Fin O → Dual)
        (emb : Fin B → Fin N → Fin E → Dual)
        (b : Fin B) (k : Fin K) (n : Fin N) (o : Fin O),
        (dPriorsTemp K S emb b k n o).val = (dPriorsOf K S emb b k n o).val ∧
          (dPriorsTemp K S emb b k n o).der = 0) ∧
    (∀ (B K N E O : ℕ) (S : Fin E → Fin O → Dual)
        (emb : Fin B → Fin N → Fin E → Dual)
        (coupInit : Fin B → Fin K → Fin N → Fin O → ℝ) (t : ℕ)
        (b : Fin B) (k : Fin K) (n : Fin N) (o : Fin O),
        (dRoutingLoop (dPriorsTemp K S emb) t
            (fun b' k' n' o' => Dual.const (coupInit b' k' n' o')) b k n o).der = 0) ∧
    (∀ (B K N E O : ℕ) (num_iter : ℤ) (S : Fin E → Fin O → Dual)
        (emb : Fin B → Fin N → Fin E → Dual)
        (coupInit : Fin B → Fin K → Fin N → Fin O → ℝ)
        (b : Fin B) (k : Fin K) (o : Fin O),
        (dZFinal K num_iter S emb coupInit b k o).der =
          ∑ n, (dSoftmaxK (dCoupFinal K num_iter S emb coupInit) b k n o).val *
            (dPriorsOf K S emb b k n o).der) ∧
    (dForwardCore (B := 1) (N := 1) (E := 1) (O := 1) 1 2
        (fun _ _ => Dual.mk 3 1) (fun _ _ _ => Dual.mk 1 0)
        (fun _ _ _ _ => 0) 0 0 0).der ≠ 0 := by
  refine ⟨?_, ?_, ?_, ?_⟩
  · intro B K N E O S emb b k n o
    exact ⟨rfl, rfl⟩
  · intro B K N E O S emb coupInit t b k n o
    exact dRoutingLoop_der_zero _ (fun _ _ _ _ => rfl) t _ (fun _ _ _ _ => rfl) b k n o
  · intro B K N E O num_iter S emb coupInit b k o
    rw [dZFinal, dRoutedSum, Dual.der_sum]
    refine Finset.sum_congr rfl fun n _ => ?_
    have hw : (dSoftmaxK (dCoupFinal K num_iter S emb coupInit) b k n o).der = 0 :=
      dSoftmaxK_der_zero _ (fun b' k' n' o' => dCoupFinal_der_zero K num_iter S emb
        coupInit b' k' n' o') b k n o
    simp [hw]
  · have h9 : Real.sqrt 9 = 3 := by
      rw [show (9 : ℝ) = 3 ^ 2 by norm_num, Real.sqrt_sq (by norm_num : (0 : ℝ) ≤ 3)]
    have hz : dZFinal (B := 1) (N := 1) (E := 1) (O := 1) 1 2
        (fun _ _ => Dual.mk 3 1) (fun _ _ _ => Dual.mk 1 0) (fun _ _ _ _ => 0) 0 0 =
        fun _ : Fin 1 => Dual.mk 3 1 := by
      funext o
      apply Dual.ext2 <;>
        simp [dZFinal, dCoupFinal, show ((2 : ℤ) - 1).toNat = 1 from rfl,
          dRoutingLoop, dRoutingIter, dSimilarityOf, dRoutingV, dRoutedSum,
          dSoftmaxK, dPriorsTemp, dPriorsOf, dSquash, dSqNorm, Dual.detach,
          Dual.const, Dual.exp, Dual.sqrt, Fin.sum_univ_one, Real.exp_zero, h9]
    rw [dForwardCore, hz]
    simp [dSquash, dSqNorm, Fin.sum_univ_one, Dual.sqrt, h9]
    norm_num
